import Mathlib

/-!
# Verification of the ledger transaction engine and webhook subsystem

Shallow embedding of the Rust web server sources:

* `src/services/transaction_service.rs` — `execute_credit`, `execute_debit`,
  `execute_transfer` (validation, idempotency fast path, row locking,
  balance mutation, transaction insertion, commit/rollback);
* `src/handlers/transactions.rs` — the `create_credit` handler (ownership
  check, then the service call);
* `src/services/webhook_service.rs` — `notify_transaction_webhooks`,
  `send_webhook`, `validate_webhook_url`;
* `src/error.rs` — `AppError` (extended with the two variants that
  `webhook_service.rs` constructs).

Modelling conventions:

* `Uuid` identifiers become `Nat`; database-generated ids (transaction ids,
  webhook event ids) are modelled by a fresh-id counter.
* `i64` money amounts become `Int`.  Postgres `bigint` arithmetic raises an
  error (aborting the unit of work) instead of wrapping, so unbounded `Int`
  is faithful on every committed state.
* Timestamp, currency and metadata columns are omitted: no verified claim
  mentions them, and the service never reads them.
* The database is explicit state (`DB`); each service call returns the
  result, the post-state, and a trace of the storage statements it issued,
  so that claims about lock order and about "no storage access" are
  statements about the trace.
* One Postgres `UPDATE ... SET balance_cents = balance_cents ± $1 WHERE id =
  $2` is modelled by `updateBalanceRows` with a signed delta.
-/

namespace Ledger

/-- Application error enum from `src/error.rs`.  The `invalidWebhookUrl` and
`webhookNotFound` variants do not appear in the committed `error.rs`, but
`src/services/webhook_service.rs` constructs both, so the enum is modelled
with them included. -/
inductive AppError where
  /-- `AppError::Database` — the wrapped `sqlx::Error` is modelled by its
  message text. -/
  | database (msg : String)
  /-- `AppError::InvalidApiKey` -/
  | invalidApiKey
  /-- `AppError::AccountNotFound` -/
  | accountNotFound
  /-- `AppError::InsufficientBalance` -/
  | insufficientBalance
  /-- `AppError::InvalidRequest(String)` -/
  | invalidRequest (msg : String)
  /-- `AppError::InvalidWebhookUrl(String)` (constructed in `webhook_service.rs`) -/
  | invalidWebhookUrl (msg : String)
  /-- `AppError::WebhookNotFound` (constructed in `webhook_service.rs`) -/
  | webhookNotFound
deriving Repr, DecidableEq

/-- Row of the `accounts` table (`src/models/account.rs`): id, owning api
key, balance in minor units. -/
structure Account where
  id : Nat
  api_key_id : Nat
  balance_cents : Int
deriving Repr, DecidableEq

/-- Row of the `transactions` table (`src/models/transaction.rs`). -/
structure Transaction where
  id : Nat
  idempotency_key : Option String
  transaction_type : String
  from_account_id : Option Nat
  to_account_id : Option Nat
  amount_cents : Int
  description : Option String
  status : String
deriving Repr, DecidableEq

/-- Row of the `webhook_endpoints` table (`src/models/webhook.rs`). -/
structure WebhookEndpoint where
  id : Nat
  api_key_id : Nat
  url : String
  secret : String
  is_active : Bool
deriving Repr, DecidableEq

/-- Row of the `webhook_events` table (`src/models/webhook.rs`): one record
per delivery attempt.  The serialized payload is not modelled. -/
structure WebhookEvent where
  id : Nat
  webhook_endpoint_id : Nat
  transaction_id : Nat
  response_status : Option Int
  response_body : Option String
deriving Repr, DecidableEq

/-- The database state: the four tables the verified code touches, plus a
counter modelling database-side generation of fresh row ids. -/
structure DB where
  accounts : List Account
  transactions : List Transaction
  endpoints : List WebhookEndpoint
  webhookEvents : List WebhookEvent
  nextTxId : Nat
deriving Repr, DecidableEq

/-- One storage statement issued by the service layer.  The trace of these
events makes lock-acquisition order and presence/absence of storage access
part of the observable behaviour. -/
inductive DbEvent where
  /-- `SELECT * FROM transactions WHERE idempotency_key = $1` -/
  | queryIdempotencyKey (key : String)
  /-- handler-level `SELECT id FROM accounts WHERE id = $1 AND api_key_id = $2` -/
  | queryAccountOwnership (accountId apiKeyId : Nat)
  /-- `pool.begin()` -/
  | beginTx
  /-- `UPDATE accounts SET balance_cents = balance_cents + delta WHERE id = $2`
  (also takes the row lock on the matching row) -/
  | updateBalance (accountId : Nat) (delta : Int)
  /-- `SELECT balance_cents FROM accounts WHERE id = $1 FOR UPDATE` -/
  | lockAndReadBalance (accountId : Nat)
  /-- `SELECT EXISTS(SELECT 1 FROM accounts WHERE id = $1 FOR UPDATE)` -/
  | lockAndCheckExists (accountId : Nat)
  /-- `INSERT INTO transactions ... RETURNING *` -/
  | insertTransactionRow
  /-- `tx.commit()` -/
  | commitTx
  /-- `tx.rollback()`, or the implicit rollback when the open `tx` is
  dropped by `?`-propagation -/
  | rollbackTx
deriving Repr, DecidableEq

/-- Result of one service call: the Rust `Result<Transaction, AppError>`,
the database state after the call, and the trace of storage statements. -/
structure ExecResult where
  result : Except AppError Transaction
  db : DB
  trace : List DbEvent
deriving Repr

/-- Prefix extra storage events onto a result trace. -/
def prependTrace (es : List DbEvent) (r : ExecResult) : ExecResult :=
  { r with trace := es ++ r.trace }

/-- `SELECT * FROM transactions WHERE idempotency_key = $1` with
`fetch_optional`: the first row whose key matches. -/
def findByKey (db : DB) (key : String) : Option Transaction :=
  db.transactions.find? (fun t => t.idempotency_key == some key)

/-- Whether inserting a row with this idempotency key would violate the
uniqueness constraint on `transactions.idempotency_key`. -/
def keyConflict (db : DB) : Option String → Bool
  | none => false
  | some key => db.transactions.any (fun t => t.idempotency_key == some key)

/-- Error with which Postgres rejects an insert that violates the
idempotency-key uniqueness constraint; it reaches the caller through
`AppError::Database` via the `?` on the insert. -/
def uniqueViolation : AppError :=
  .database "duplicate key value violates unique constraint on idempotency_key"

/-- `UPDATE accounts SET balance_cents = balance_cents + delta, updated_at =
NOW() WHERE id = accountId` applied to the rows of the table (a negative
`delta` models the `balance_cents - $1` form). -/
def updateBalanceRows (accounts : List Account) (accountId : Nat) (delta : Int) :
    List Account :=
  accounts.map (fun a =>
    if a.id == accountId then { a with balance_cents := a.balance_cents + delta } else a)

/-- Steps 2-7 of `execute_credit` (`transaction_service.rs` lines 71-120):
begin, update-and-lock the account row, insert the transaction row, commit;
rollback on a missing account, implicit rollback if the insert violates the
uniqueness constraint. -/
def credit_unit_of_work (db : DB) (account_id : Nat) (amount_cents : Int)
    (description idempotency_key : Option String) : ExecResult :=
  if db.accounts.any (fun a => a.id == account_id) then
    if keyConflict db idempotency_key then
      ⟨.error uniqueViolation, db,
        [.beginTx, .updateBalance account_id amount_cents,
         .insertTransactionRow, .rollbackTx]⟩
    else
      ⟨.ok { id := db.nextTxId, idempotency_key := idempotency_key,
             transaction_type := "credit", from_account_id := none,
             to_account_id := some account_id, amount_cents := amount_cents,
             description := description, status := "completed" },
        { db with
            accounts := updateBalanceRows db.accounts account_id amount_cents,
            transactions := db.transactions ++
              [{ id := db.nextTxId, idempotency_key := idempotency_key,
                 transaction_type := "credit", from_account_id := none,
                 to_account_id := some account_id, amount_cents := amount_cents,
                 description := description, status := "completed" }],
            nextTxId := db.nextTxId + 1 },
        [.beginTx, .updateBalance account_id amount_cents,
         .insertTransactionRow, .commitTx]⟩
  else
    ⟨.error .accountNotFound, db,
      [.beginTx, .updateBalance account_id amount_cents, .rollbackTx]⟩

/-- `execute_credit` (`transaction_service.rs` lines 44-121): amount
validation, idempotency fast path, then the unit of work. -/
def execute_credit (db : DB) (account_id : Nat) (amount_cents : Int)
    (description idempotency_key : Option String) : ExecResult :=
  if amount_cents ≤ 0 then
    ⟨.error (.invalidRequest "Amount must be positive"), db, []⟩
  else
    match idempotency_key with
    | some key =>
      match findByKey db key with
      | some existing => ⟨.ok existing, db, [.queryIdempotencyKey key]⟩
      | none =>
        prependTrace [.queryIdempotencyKey key]
          (credit_unit_of_work db account_id amount_cents description idempotency_key)
    | none => credit_unit_of_work db account_id amount_cents description idempotency_key

/-- Steps of `execute_debit` after validation and fast path
(`transaction_service.rs` lines 151-205): begin, lock and read the balance,
reject an overdraft, update the balance, insert the row, commit. -/
def debit_unit_of_work (db : DB) (account_id : Nat) (amount_cents : Int)
    (description idempotency_key : Option String) : ExecResult :=
  match db.accounts.find? (fun a => a.id == account_id) with
  | none =>
    ⟨.error .accountNotFound, db,
      [.beginTx, .lockAndReadBalance account_id, .rollbackTx]⟩
  | some acct =>
    if acct.balance_cents < amount_cents then
      ⟨.error .insufficientBalance, db,
        [.beginTx, .lockAndReadBalance account_id, .rollbackTx]⟩
    else
      if keyConflict db idempotency_key then
        ⟨.error uniqueViolation, db,
          [.beginTx, .lockAndReadBalance account_id,
           .updateBalance account_id (-amount_cents),
           .insertTransactionRow, .rollbackTx]⟩
      else
        ⟨.ok { id := db.nextTxId, idempotency_key := idempotency_key,
               transaction_type := "debit", from_account_id := some account_id,
               to_account_id := none, amount_cents := amount_cents,
               description := description, status := "completed" },
          { db with
              accounts := updateBalanceRows db.accounts account_id (-amount_cents),
              transactions := db.transactions ++
                [{ id := db.nextTxId, idempotency_key := idempotency_key,
                   transaction_type := "debit", from_account_id := some account_id,
                   to_account_id := none, amount_cents := amount_cents,
                   description := description, status := "completed" }],
              nextTxId := db.nextTxId + 1 },
          [.beginTx, .lockAndReadBalance account_id,
           .updateBalance account_id (-amount_cents),
           .insertTransactionRow, .commitTx]⟩

/-- `execute_debit` (`transaction_service.rs` lines 124-206). -/
def execute_debit (db : DB) (account_id : Nat) (amount_cents : Int)
    (description idempotency_key : Option String) : ExecResult :=
  if amount_cents ≤ 0 then
    ⟨.error (.invalidRequest "Amount must be positive"), db, []⟩
  else
    match idempotency_key with
    | some key =>
      match findByKey db key with
      | some existing => ⟨.ok existing, db, [.queryIdempotencyKey key]⟩
      | none =>
        prependTrace [.queryIdempotencyKey key]
          (debit_unit_of_work db account_id amount_cents description idempotency_key)
    | none => debit_unit_of_work db account_id amount_cents description idempotency_key

/-- Steps of `execute_transfer` after validation and fast path
(`transaction_service.rs` lines 243-317): begin, lock and read the source
balance, reject an overdraft, lock the destination row and check existence,
apply both balance updates, insert the row, commit.  Note the source locks
the `from` row first and the `to` row second, in that textual order. -/
def transfer_unit_of_work (db : DB) (from_account_id to_account_id : Nat)
    (amount_cents : Int) (description idempotency_key : Option String) : ExecResult :=
  match db.accounts.find? (fun a => a.id == from_account_id) with
  | none =>
    ⟨.error .accountNotFound, db,
      [.beginTx, .lockAndReadBalance from_account_id, .rollbackTx]⟩
  | some fromAcct =>
    if fromAcct.balance_cents < amount_cents then
      ⟨.error .insufficientBalance, db,
        [.beginTx, .lockAndReadBalance from_account_id, .rollbackTx]⟩
    else
      if db.accounts.any (fun a => a.id == to_account_id) then
        if keyConflict db idempotency_key then
          ⟨.error uniqueViolation, db,
            [.beginTx, .lockAndReadBalance from_account_id,
             .lockAndCheckExists to_account_id,
             .updateBalance from_account_id (-amount_cents),
             .updateBalance to_account_id amount_cents,
             .insertTransactionRow, .rollbackTx]⟩
        else
          ⟨.ok { id := db.nextTxId, idempotency_key := idempotency_key,
                 transaction_type := "transfer",
                 from_account_id := some from_account_id,
                 to_account_id := some to_account_id,
                 amount_cents := amount_cents, description := description,
                 status := "completed" },
            { db with
                accounts :=
                  updateBalanceRows
                    (updateBalanceRows db.accounts from_account_id (-amount_cents))
                    to_account_id amount_cents,
                transactions := db.transactions ++
                  [{ id := db.nextTxId, idempotency_key := idempotency_key,
                     transaction_type := "transfer",
                     from_account_id := some from_account_id,
                     to_account_id := some to_account_id,
                     amount_cents := amount_cents, description := description,
                     status := "completed" }],
                nextTxId := db.nextTxId + 1 },
            [.beginTx, .lockAndReadBalance from_account_id,
             .lockAndCheckExists to_account_id,
             .updateBalance from_account_id (-amount_cents),
             .updateBalance to_account_id amount_cents,
             .insertTransactionRow, .commitTx]⟩
      else
        ⟨.error .accountNotFound, db,
          [.beginTx, .lockAndReadBalance from_account_id,
           .lockAndCheckExists to_account_id, .rollbackTx]⟩

/-- `execute_transfer` (`transaction_service.rs` lines 209-318): amount
validation, same-account validation, idempotency fast path, then the unit
of work. -/
def execute_transfer (db : DB) (from_account_id to_account_id : Nat)
    (amount_cents : Int) (description idempotency_key : Option String) : ExecResult :=
  if amount_cents ≤ 0 then
    ⟨.error (.invalidRequest "Amount must be positive"), db, []⟩
  else if from_account_id = to_account_id then
    ⟨.error (.invalidRequest "Cannot transfer to same account"), db, []⟩
  else
    match idempotency_key with
    | some key =>
      match findByKey db key with
      | some existing => ⟨.ok existing, db, [.queryIdempotencyKey key]⟩
      | none =>
        prependTrace [.queryIdempotencyKey key]
          (transfer_unit_of_work db from_account_id to_account_id amount_cents
            description idempotency_key)
    | none =>
      transfer_unit_of_work db from_account_id to_account_id amount_cents
        description idempotency_key

/-- The check-then-insert idempotency race made explicit: the fast-path
lookup of `execute_credit` observes state `db0`, but a concurrent duplicate
submission commits before this unit of work runs, so the unit of work
executes against `db1`.  Validation and fast path are verbatim those of
`execute_credit`; only the state the unit of work sees differs. -/
def execute_credit_racy (db0 db1 : DB) (account_id : Nat) (amount_cents : Int)
    (description : Option String) (key : String) : ExecResult :=
  if amount_cents ≤ 0 then
    ⟨.error (.invalidRequest "Amount must be positive"), db0, []⟩
  else
    match findByKey db0 key with
    | some existing => ⟨.ok existing, db0, [.queryIdempotencyKey key]⟩
    | none =>
      prependTrace [.queryIdempotencyKey key]
        (credit_unit_of_work db1 account_id amount_cents description (some key))

/-- The `create_credit` handler (`src/handlers/transactions.rs` lines
47-72): verify the account belongs to the authenticated business, then call
`execute_credit` and return.  The handler performs no further call after the
service returns — in particular it never invokes
`notify_transaction_webhooks`. -/
def create_credit (db : DB) (auth_api_key_id : Nat) (account_id : Nat)
    (amount_cents : Int) (description idempotency_key : Option String) : ExecResult :=
  match db.accounts.find? (fun a => a.id == account_id && a.api_key_id == auth_api_key_id) with
  | none =>
    ⟨.error .accountNotFound, db, [.queryAccountOwnership account_id auth_api_key_id]⟩
  | some a =>
    prependTrace [.queryAccountOwnership account_id auth_api_key_id]
      (execute_credit db a.id amount_cents description idempotency_key)

/-- Outcome of the webhook HTTP POST in `send_webhook`
(`webhook_service.rs` lines 189-210): either a response with a status code
and optional body text, or a request-level failure (timeout, connection
error). -/
inductive HttpOutcome where
  | response (status : Int) (body : Option String)
  | failure (message : String)
deriving Repr, DecidableEq

/-- `send_webhook` (`webhook_service.rs` lines 168-249): one delivery
attempt, recorded as one `webhook_events` row regardless of the HTTP
outcome.  The HTTP interaction itself is abstracted into the `outcome`
argument; payload serialization and HMAC signing are not modelled (neither
can fail in a way a verified claim depends on). -/
def send_webhook (db : DB) (eventId : Nat) (endpoint : WebhookEndpoint)
    (t : Transaction) (outcome : HttpOutcome) : DB :=
  let statusAndBody : Option Int × Option String :=
    match outcome with
    | .response s b => (some s, b)
    | .failure msg => (none, some ("Request failed: " ++ msg))
  { db with
      webhookEvents := db.webhookEvents ++
        [{ id := eventId, webhook_endpoint_id := endpoint.id,
           transaction_id := t.id, response_status := statusAndBody.1,
           response_body := statusAndBody.2 }] }

/-- The delivery loop of `notify_transaction_webhooks`: one `send_webhook`
per fetched endpoint; a failure on one endpoint does not stop the loop
(`send_webhook` errors are logged and swallowed).  Fresh event ids are
modelled by the `eventId` counter. -/
def notifyEach (db : DB) (t : Transaction) (outcomes : Nat → HttpOutcome)
    (eventId : Nat) : List WebhookEndpoint → DB
  | [] => db
  | e :: rest =>
    notifyEach (send_webhook db eventId e t (outcomes e.id)) t outcomes (eventId + 1) rest

/-- The active endpoints fetched by `notify_transaction_webhooks`:
`SELECT * FROM webhook_endpoints WHERE api_key_id = $1 AND is_active = true`. -/
def activeEndpointsFor (db : DB) (api_key_id : Nat) : List WebhookEndpoint :=
  db.endpoints.filter (fun e => e.api_key_id == api_key_id && e.is_active)

/-- `notify_transaction_webhooks` (`webhook_service.rs` lines 126-148):
fetch the active endpoints of the owning api key, then attempt delivery to
each one. -/
def notify_transaction_webhooks (db : DB) (t : Transaction) (api_key_id : Nat)
    (outcomes : Nat → HttpOutcome) (eventId : Nat) : DB :=
  notifyEach db t outcomes eventId (activeEndpointsFor db api_key_id)

/-- Result of `url::Url::parse` as far as `validate_webhook_url` inspects
it: the (normalized) scheme and `host_str()`. -/
structure ParsedUrl where
  scheme : String
  host : Option String
deriving Repr, DecidableEq

/-- A raw URL string together with the outcome of `url::Url::parse` on it.
The parse itself is not re-implemented; concrete instances record what the
`url` crate returns for that exact string. -/
structure UrlInput where
  raw : String
  parsed : Option ParsedUrl
deriving Repr, DecidableEq

/-- `validate_webhook_url` (`webhook_service.rs` lines 287-318).  The Rust
`url.len()` is a byte length; `String.length` coincides with it on the
ASCII strings URLs are made of here. -/
def validate_webhook_url (u : UrlInput) : Except AppError Unit :=
  if 2048 < u.raw.length then
    .error (.invalidWebhookUrl "URL exceeds 2048 characters")
  else
    match u.parsed with
    | none => .error (.invalidWebhookUrl "Invalid URL format")
    | some p =>
      if p.scheme = "https" then .ok ()
      else if p.scheme = "http" then
        if p.host = some "localhost" ∨ p.host = some "127.0.0.1" ∨ p.host = some "0.0.0.0" then
          .ok ()
        else
          .error (.invalidWebhookUrl
            "HTTP is only allowed for localhost. Use HTTPS for production.")
      else .error (.invalidWebhookUrl "URL must use HTTP or HTTPS")

/-- Balance of an account as observed by a reader:
`SELECT balance_cents FROM accounts WHERE id = $1` with `fetch_optional`. -/
def balanceOf (db : DB) (accountId : Nat) : Option Int :=
  (db.accounts.find? (fun a => a.id == accountId)).map (fun a => a.balance_cents)

/-- Every stored balance is non-negative. -/
def nonNegBalances (db : DB) : Prop :=
  ∀ a ∈ db.accounts, 0 ≤ a.balance_cents

/-- The primary key of `accounts`: no two rows share an id. -/
def uniqueAccountIds (db : DB) : Prop :=
  (db.accounts.map (fun a => a.id)).Nodup

/-- The uniqueness constraint on `transactions.idempotency_key`: the keys
that are present are pairwise distinct. -/
def uniqueKeys (db : DB) : Prop :=
  (db.transactions.filterMap (fun t => t.idempotency_key)).Nodup

/-- The account ids on which a trace acquires an exclusive row lock through
a `SELECT ... FOR UPDATE`, in acquisition order. -/
def locksAcquired : List DbEvent → List Nat
  | [] => []
  | .lockAndReadBalance a :: rest => a :: locksAcquired rest
  | .lockAndCheckExists a :: rest => a :: locksAcquired rest
  | _ :: rest => locksAcquired rest

instance decNonNegBalances (db : DB) : Decidable (nonNegBalances db) := by
  unfold nonNegBalances; infer_instance

instance decUniqueAccountIds (db : DB) : Decidable (uniqueAccountIds db) := by
  unfold uniqueAccountIds; infer_instance

instance decUniqueKeys (db : DB) : Decidable (uniqueKeys db) := by
  unfold uniqueKeys; infer_instance

/-! ## Concrete states used by witnesses and counterexamples -/

/-- Spec scenario 2: one account (id 1, owner 7) holding 300 cents. -/
def dbScenario2 : DB :=
  { accounts := [⟨1, 7, 300⟩], transactions := [], endpoints := [],
    webhookEvents := [], nextTxId := 0 }

/-- Spec scenario 3: account 1 holding 1000 cents, account 2 holding 0. -/
def dbScenario3 : DB :=
  { accounts := [⟨1, 7, 1000⟩, ⟨2, 7, 0⟩], transactions := [], endpoints := [],
    webhookEvents := [], nextTxId := 0 }

/-- A previously committed debit transaction carrying idempotency key `k1`. -/
def txKeyed : Transaction :=
  { id := 0, idempotency_key := some "k1", transaction_type := "debit",
    from_account_id := some 1, to_account_id := none, amount_cents := 42,
    description := none, status := "completed" }

/-- A database already holding `txKeyed`. -/
def dbKeyed : DB :=
  { accounts := [⟨1, 7, 100⟩], transactions := [txKeyed], endpoints := [],
    webhookEvents := [], nextTxId := 1 }

/-- State observed by the idempotency fast-path lookup in the race scenario:
no transaction with key `k` exists yet. -/
def dbRaceBefore : DB :=
  { accounts := [⟨1, 7, 0⟩], transactions := [], endpoints := [],
    webhookEvents := [], nextTxId := 5 }

/-- The transaction committed by the concurrent duplicate submission. -/
def txConcurrent : Transaction :=
  { id := 5, idempotency_key := some "k", transaction_type := "credit",
    from_account_id := none, to_account_id := some 1, amount_cents := 500,
    description := none, status := "completed" }

/-- State once the concurrent duplicate has committed: same account, now
credited, and the keyed transaction row present. -/
def dbRaceAfter : DB :=
  { accounts := [⟨1, 7, 500⟩], transactions := [txConcurrent], endpoints := [],
    webhookEvents := [], nextTxId := 6 }

/-- Two accounts for the lock-order scenario. -/
def dbTwoAccounts : DB :=
  { accounts := [⟨1, 7, 1000⟩, ⟨2, 7, 1000⟩], transactions := [], endpoints := [],
    webhookEvents := [], nextTxId := 0 }

/-- Owner 7 with one account and one active webhook endpoint registered. -/
def dbWithEndpoint : DB :=
  { accounts := [⟨1, 7, 0⟩], transactions := [],
    endpoints := [⟨10, 7, "https://example.com/hook", "c0ffee", true⟩],
    webhookEvents := [], nextTxId := 0 }

/-- The transaction row the credit in `dbWithEndpoint` commits. -/
def txCredited : Transaction :=
  { id := 0, idempotency_key := none, transaction_type := "credit",
    from_account_id := none, to_account_id := some 1, amount_cents := 500,
    description := none, status := "completed" }

/-- `http://example.com/hook` and what `url::Url::parse` returns on it. -/
def urlHttpExample : UrlInput :=
  { raw := "http://example.com/hook", parsed := some ⟨"http", some "example.com"⟩ }

/-- `http://localhost/hook` and its parse. -/
def urlHttpLocalhost : UrlInput :=
  { raw := "http://localhost/hook", parsed := some ⟨"http", some "localhost"⟩ }

/-- `https://example.com/hook` and its parse. -/
def urlHttpsExample : UrlInput :=
  { raw := "https://example.com/hook", parsed := some ⟨"https", some "example.com"⟩ }

/-! ## Helper lemmas -/

theorem prependTrace_result (es : List DbEvent) (r : ExecResult) :
    (prependTrace es r).result = r.result := rfl

theorem prependTrace_db (es : List DbEvent) (r : ExecResult) :
    (prependTrace es r).db = r.db := rfl

theorem id_of_updated (a : Account) (x : Nat) (δ : Int) :
    (if a.id == x then { a with balance_cents := a.balance_cents + δ } else a).id = a.id := by
  split <;> rfl

/-- Updating balances commutes with lookup: the lookup result is the old
row, with the update function applied. -/
theorem find?_updateBalanceRows (l : List Account) (x y : Nat) (δ : Int) :
    (updateBalanceRows l x δ).find? (fun a => a.id == y)
      = (l.find? (fun a => a.id == y)).map
          (fun a => if a.id == x then { a with balance_cents := a.balance_cents + δ } else a) := by
  unfold updateBalanceRows
  have hp : ((fun a => a.id == y) ∘
        fun a => if a.id == x then { a with balance_cents := a.balance_cents + δ } else a)
      = (fun a : Account => a.id == y) := by
    funext a
    simp only [Function.comp_apply]
    rw [id_of_updated]
  rw [List.find?_map, hp]

/-- Looking up an account other than the updated one is unaffected by the
update. -/
theorem find?_updateBalanceRows_ne (l : List Account) {x y : Nat} (δ : Int)
    (h : y ≠ x) :
    (updateBalanceRows l x δ).find? (fun a => a.id == y)
      = l.find? (fun a => a.id == y) := by
  rw [find?_updateBalanceRows]
  cases hf : l.find? (fun a => a.id == y) with
  | none => rfl
  | some a =>
    have ha : ¬ a.id = x := by
      have : a.id = y := by simpa using List.find?_some hf
      rw [this]; exact h
    simp [ha]

/-- Looking up the updated account returns the old row with the delta
applied. -/
theorem find?_updateBalanceRows_eq (l : List Account) (x : Nat) (δ : Int) :
    (updateBalanceRows l x δ).find? (fun a => a.id == x)
      = (l.find? (fun a => a.id == x)).map
          (fun a => { a with balance_cents := a.balance_cents + δ }) := by
  rw [find?_updateBalanceRows]
  cases hf : l.find? (fun a => a.id == x) with
  | none => rfl
  | some a =>
    have ha : a.id = x := by simpa using List.find?_some hf
    simp [ha]

theorem keyConflict_none (db : DB) : keyConflict db none = false := rfl

theorem keyConflict_eq_false_of_findByKey_none {db : DB} {key : String}
    (h : findByKey db key = none) : keyConflict db (some key) = false := by
  unfold findByKey at h
  rw [List.find?_eq_none] at h
  unfold keyConflict
  rw [List.any_eq_false]
  exact h

theorem any_eq_true_of_find?_some {α : Type} {l : List α} {p : α → Bool} {a : α}
    (h : l.find? p = some a) : l.any p = true := by
  rw [List.any_eq_true]
  exact ⟨a, List.mem_of_find?_eq_some h, List.find?_some h⟩

/-- Unpack `balanceOf db x = some b` into the underlying account row. -/
theorem exists_account_of_balanceOf {db : DB} {x : Nat} {b : Int}
    (h : balanceOf db x = some b) :
    ∃ acct, db.accounts.find? (fun a => a.id == x) = some acct ∧
      acct.balance_cents = b ∧ acct.id = x ∧ acct ∈ db.accounts := by
  unfold balanceOf at h
  cases hfind : db.accounts.find? (fun a => a.id == x) with
  | none => rw [hfind] at h; exact absurd h (by simp)
  | some acct =>
    rw [hfind] at h
    refine ⟨acct, rfl, by simpa using h, ?_, List.mem_of_find?_eq_some hfind⟩
    have := List.find?_some hfind
    simpa using this

/-- Appending a freshly inserted row keeps the idempotency keys pairwise
distinct, provided the insert passed the uniqueness constraint. -/
theorem nodup_keys_append {db : DB} {t : Transaction}
    (h : uniqueKeys db) (hc : keyConflict db t.idempotency_key = false) :
    ((db.transactions ++ [t]).filterMap (fun t => t.idempotency_key)).Nodup := by
  rw [List.filterMap_append]
  cases hkey : t.idempotency_key with
  | none => simpa [hkey] using h
  | some key =>
    rw [hkey] at hc
    unfold keyConflict at hc
    rw [List.any_eq_false] at hc
    rw [List.nodup_append]
    refine ⟨h, by simp [hkey], ?_⟩
    intro x hx hx'
    simp only [hkey, List.filterMap_cons, List.filterMap_nil] at hx'
    have hxkey : x = key := by simpa using hx'
    subst hxkey
    rcases List.mem_filterMap.mp hx with ⟨t', ht', hkey'⟩
    exact hc t' ht' (by simp [hkey'])

/-- `execute_credit`, fast-path hit: the stored transaction is returned
as-is and nothing else runs. -/
theorem execute_credit_hit {db : DB} {key : String} {tx : Transaction}
    (h : findByKey db key = some tx) {amt : Int} (hamt : 0 < amt)
    (a : Nat) (d : Option String) :
    execute_credit db a amt d (some key)
      = ⟨.ok tx, db, [.queryIdempotencyKey key]⟩ := by
  unfold execute_credit
  rw [if_neg (not_le.mpr hamt)]
  simp only [h]

/-- `execute_credit`, fast-path miss: the lookup runs, then the unit of
work. -/
theorem execute_credit_miss {db : DB} {key : String}
    (h : findByKey db key = none) {amt : Int} (hamt : 0 < amt)
    (a : Nat) (d : Option String) :
    execute_credit db a amt d (some key)
      = prependTrace [.queryIdempotencyKey key]
          (credit_unit_of_work db a amt d (some key)) := by
  unfold execute_credit
  rw [if_neg (not_le.mpr hamt)]
  simp only [h]

/-- `execute_credit` without an idempotency key goes straight to the unit
of work. -/
theorem execute_credit_nokey (db : DB) (a : Nat) {amt : Int} (hamt : 0 < amt)
    (d : Option String) :
    execute_credit db a amt d none = credit_unit_of_work db a amt d none := by
  unfold execute_credit
  rw [if_neg (not_le.mpr hamt)]

theorem execute_debit_hit {db : DB} {key : String} {tx : Transaction}
    (h : findByKey db key = some tx) {amt : Int} (hamt : 0 < amt)
    (a : Nat) (d : Option String) :
    execute_debit db a amt d (some key)
      = ⟨.ok tx, db, [.queryIdempotencyKey key]⟩ := by
  unfold execute_debit
  rw [if_neg (not_le.mpr hamt)]
  simp only [h]

theorem execute_debit_miss {db : DB} {key : String}
    (h : findByKey db key = none) {amt : Int} (hamt : 0 < amt)
    (a : Nat) (d : Option String) :
    execute_debit db a amt d (some key)
      = prependTrace [.queryIdempotencyKey key]
          (debit_unit_of_work db a amt d (some key)) := by
  unfold execute_debit
  rw [if_neg (not_le.mpr hamt)]
  simp only [h]

theorem execute_debit_nokey (db : DB) (a : Nat) {amt : Int} (hamt : 0 < amt)
    (d : Option String) :
    execute_debit db a amt d none = debit_unit_of_work db a amt d none := by
  unfold execute_debit
  rw [if_neg (not_le.mpr hamt)]

theorem execute_transfer_hit {db : DB} {key : String} {tx : Transaction}
    (h : findByKey db key = some tx) {amt : Int} (hamt : 0 < amt)
    {f t : Nat} (hne : f ≠ t) (d : Option String) :
    execute_transfer db f t amt d (some key)
      = ⟨.ok tx, db, [.queryIdempotencyKey key]⟩ := by
  unfold execute_transfer
  rw [if_neg (not_le.mpr hamt), if_neg hne]
  simp only [h]

theorem execute_transfer_miss {db : DB} {key : String}
    (h : findByKey db key = none) {amt : Int} (hamt : 0 < amt)
    {f t : Nat} (hne : f ≠ t) (d : Option String) :
    execute_transfer db f t amt d (some key)
      = prependTrace [.queryIdempotencyKey key]
          (transfer_unit_of_work db f t amt d (some key)) := by
  unfold execute_transfer
  rw [if_neg (not_le.mpr hamt), if_neg hne]
  simp only [h]

theorem execute_transfer_nokey (db : DB) {f t : Nat} (hne : f ≠ t)
    {amt : Int} (hamt : 0 < amt) (d : Option String) :
    execute_transfer db f t amt d none = transfer_unit_of_work db f t amt d none := by
  unfold execute_transfer
  rw [if_neg (not_le.mpr hamt), if_neg hne]

/-- Dispatch under a missed (or absent) idempotency key: result and
post-state of `execute_debit` are those of its unit of work. -/
theorem execute_debit_dispatch {db : DB} {k : Option String}
    (hk : k.bind (findByKey db) = none) {amt : Int} (hamt : 0 < amt)
    (a : Nat) (d : Option String) :
    (execute_debit db a amt d k).result = (debit_unit_of_work db a amt d k).result ∧
    (execute_debit db a amt d k).db = (debit_unit_of_work db a amt d k).db := by
  cases k with
  | none => rw [execute_debit_nokey db a hamt d]; exact ⟨rfl, rfl⟩
  | some key =>
    have hk' : findByKey db key = none := hk
    rw [execute_debit_miss hk' hamt a d]; exact ⟨rfl, rfl⟩

theorem execute_transfer_dispatch {db : DB} {k : Option String}
    (hk : k.bind (findByKey db) = none) {amt : Int} (hamt : 0 < amt)
    {f t : Nat} (hne : f ≠ t) (d : Option String) :
    (execute_transfer db f t amt d k).result = (transfer_unit_of_work db f t amt d k).result ∧
    (execute_transfer db f t amt d k).db = (transfer_unit_of_work db f t amt d k).db := by
  cases k with
  | none => rw [execute_transfer_nokey db hne hamt d]; exact ⟨rfl, rfl⟩
  | some key =>
    have hk' : findByKey db key = none := hk
    rw [execute_transfer_miss hk' hamt hne d]; exact ⟨rfl, rfl⟩

/-- The debit unit of work rejects an overdraft before any mutation. -/
theorem debit_uow_insufficient {db : DB} {a : Nat} {acct : Account}
    (hfind : db.accounts.find? (fun x => x.id == a) = some acct)
    {amt : Int} (hlt : acct.balance_cents < amt) (d k : Option String) :
    debit_unit_of_work db a amt d k
      = ⟨.error .insufficientBalance, db,
          [.beginTx, .lockAndReadBalance a, .rollbackTx]⟩ := by
  unfold debit_unit_of_work
  rw [hfind]
  simp only [if_pos hlt]

/-- The transfer unit of work rejects an overdraft of the source account
before any mutation. -/
theorem transfer_uow_insufficient {db : DB} {f : Nat} {acct : Account}
    (hfind : db.accounts.find? (fun x => x.id == f) = some acct)
    {amt : Int} (hlt : acct.balance_cents < amt) (t : Nat) (d k : Option String) :
    transfer_unit_of_work db f t amt d k
      = ⟨.error .insufficientBalance, db,
          [.beginTx, .lockAndReadBalance f, .rollbackTx]⟩ := by
  unfold transfer_unit_of_work
  rw [hfind]
  simp only [if_pos hlt]

/-- The transfer unit of work on a satisfiable request: the exact success
tuple. -/
theorem transfer_uow_success {db : DB} {f t : Nat} {fromAcct : Account}
    (hfind : db.accounts.find? (fun x => x.id == f) = some fromAcct)
    {amt : Int} (hge : ¬ fromAcct.balance_cents < amt)
    (hto : db.accounts.any (fun x => x.id == t) = true)
    {k : Option String} (hc : keyConflict db k = false) (d : Option String) :
    transfer_unit_of_work db f t amt d k
      = ⟨.ok { id := db.nextTxId, idempotency_key := k,
               transaction_type := "transfer", from_account_id := some f,
               to_account_id := some t, amount_cents := amt,
               description := d, status := "completed" },
          { db with
              accounts :=
                updateBalanceRows (updateBalanceRows db.accounts f (-amt)) t amt,
              transactions := db.transactions ++
                [{ id := db.nextTxId, idempotency_key := k,
                   transaction_type := "transfer", from_account_id := some f,
                   to_account_id := some t, amount_cents := amt,
                   description := d, status := "completed" }],
              nextTxId := db.nextTxId + 1 },
          [.beginTx, .lockAndReadBalance f, .lockAndCheckExists t,
           .updateBalance f (-amt), .updateBalance t amt,
           .insertTransactionRow, .commitTx]⟩ := by
  unfold transfer_unit_of_work
  rw [hfind]
  simp only [if_neg hge, hto, if_pos, hc, Bool.false_eq_true, if_neg, if_true]
  simp [hc]

/-- Membership in an updated table comes from membership in the old one. -/
theorem mem_updateBalanceRows {l : List Account} {x : Account} {i : Nat} {δ : Int}
    (h : x ∈ updateBalanceRows l i δ) :
    ∃ b ∈ l, x = if b.id == i then { b with balance_cents := b.balance_cents + δ } else b := by
  unfold updateBalanceRows at h
  rcases List.mem_map.mp h with ⟨b, hb, he⟩
  exact ⟨b, hb, he.symm⟩

/-- The credit unit of work keeps all balances non-negative (the credited
amount is positive). -/
theorem credit_uow_nonneg {db : DB} (h0 : nonNegBalances db) {amt : Int}
    (hamt : 0 < amt) (a : Nat) (d k : Option String) :
    nonNegBalances (credit_unit_of_work db a amt d k).db := by
  unfold credit_unit_of_work
  split
  · split
    · exact h0
    · intro x hx
      rcases mem_updateBalanceRows hx with ⟨b, hb, rfl⟩
      split
      · have := h0 b hb
        show 0 ≤ b.balance_cents + amt
        omega
      · exact h0 b hb
  · exact h0

/-- The debit unit of work keeps all balances non-negative: the balance
check guards the subtraction. -/
theorem debit_uow_nonneg {db : DB} (h0 : nonNegBalances db)
    (hU : uniqueAccountIds db) (a : Nat) (amt : Int) (d k : Option String) :
    nonNegBalances (debit_unit_of_work db a amt d k).db := by
  unfold debit_unit_of_work
  cases hfind : db.accounts.find? (fun x => x.id == a) with
  | none => exact h0
  | some acct =>
    simp only []
    split
    · exact h0
    · rename_i hge
      split
      · exact h0
      · intro x hx
        rcases mem_updateBalanceRows hx with ⟨b, hb, rfl⟩
        split
        · rename_i hbid
          have hbid' : b.id = a := by simpa using hbid
          have hacct : acct ∈ db.accounts := List.mem_of_find?_eq_some hfind
          have hacctid : acct.id = a := by simpa using List.find?_some hfind
          have hU' : (db.accounts.map (fun a => a.id)).Nodup := hU
          have hba : b = acct :=
            List.inj_on_of_nodup_map hU' hb hacct
              (show b.id = acct.id by rw [hbid', hacctid])
          show 0 ≤ b.balance_cents + -amt
          rw [hba]
          omega
        · exact h0 b hb

/-- The transfer unit of work keeps all balances non-negative: the source
check guards the subtraction, and the destination only gains. -/
theorem transfer_uow_nonneg {db : DB} (h0 : nonNegBalances db)
    (hU : uniqueAccountIds db) {f t : Nat} (hne : f ≠ t) {amt : Int}
    (hamt : 0 < amt) (d k : Option String) :
    nonNegBalances (transfer_unit_of_work db f t amt d k).db := by
  unfold transfer_unit_of_work
  cases hfind : db.accounts.find? (fun x => x.id == f) with
  | none => exact h0
  | some fromAcct =>
    simp only []
    split
    · exact h0
    · rename_i hge
      split
      · split
        · exact h0
        · intro x hx
          rcases mem_updateBalanceRows hx with ⟨y, hy, rfl⟩
          rcases mem_updateBalanceRows hy with ⟨b, hb, rfl⟩
          by_cases hbf : b.id = f
          · have hacct : fromAcct ∈ db.accounts := List.mem_of_find?_eq_some hfind
            have hacctid : fromAcct.id = f := by simpa using List.find?_some hfind
            have hU' : (db.accounts.map (fun a => a.id)).Nodup := hU
            have hba : b = fromAcct :=
              List.inj_on_of_nodup_map hU' hb hacct
                (show b.id = fromAcct.id by rw [hbf, hacctid])
            have hbt : ¬ b.id = t := by rw [hbf]; exact hne
            simp only [hbf, hbt, beq_self_eq_true, if_true, id_of_updated]
            simp only [show ((f : Nat) == t) = false by simp [hne], Bool.false_eq_true, if_false]
            show 0 ≤ b.balance_cents + -amt
            rw [hba]
            omega
          · by_cases hbt : b.id = t
            · have hbff : (b.id == f) = false := by simp [hbf]
              simp only [hbff, Bool.false_eq_true, if_false]
              have hbtt : (b.id == t) = true := by simp [hbt]
              simp only [hbtt, if_true]
              show 0 ≤ b.balance_cents + amt
              have := h0 b hb
              omega
            · have hbff : (b.id == f) = false := by simp [hbf]
              have hbtt : (b.id == t) = false := by simp [hbt]
              simp only [hbff, hbtt, Bool.false_eq_true, if_false]
              exact h0 b hb
      · exact h0

/-- `execute_credit` keeps all balances non-negative. -/
theorem execute_credit_nonneg {db : DB} (h0 : nonNegBalances db)
    (a : Nat) (amt : Int) (d k : Option String) :
    nonNegBalances (execute_credit db a amt d k).db := by
  by_cases hamt : amt ≤ 0
  · unfold execute_credit; rw [if_pos hamt]; exact h0
  · have hamt' : 0 < amt := not_le.mp hamt
    cases k with
    | none =>
      rw [execute_credit_nokey db a hamt' d]
      exact credit_uow_nonneg h0 hamt' a d none
    | some key =>
      cases hf : findByKey db key with
      | some tx => rw [execute_credit_hit hf hamt' a d]; exact h0
      | none =>
        rw [execute_credit_miss hf hamt' a d]
        exact credit_uow_nonneg h0 hamt' a d (some key)

/-- `execute_debit` keeps all balances non-negative. -/
theorem execute_debit_nonneg {db : DB} (h0 : nonNegBalances db)
    (hU : uniqueAccountIds db) (a : Nat) (amt : Int) (d k : Option String) :
    nonNegBalances (execute_debit db a amt d k).db := by
  by_cases hamt : amt ≤ 0
  · unfold execute_debit; rw [if_pos hamt]; exact h0
  · have hamt' : 0 < amt := not_le.mp hamt
    cases k with
    | none =>
      rw [execute_debit_nokey db a hamt' d]
      exact debit_uow_nonneg h0 hU a amt d none
    | some key =>
      cases hf : findByKey db key with
      | some tx => rw [execute_debit_hit hf hamt' a d]; exact h0
      | none =>
        rw [execute_debit_miss hf hamt' a d]
        exact debit_uow_nonneg h0 hU a amt d (some key)

/-- Extract `keyConflict db k = false` from the else-branch hypothesis of a
split. -/
theorem keyConflict_false_of_not_true {db : DB} {k : Option String}
    (h : ¬ keyConflict db k = true) : keyConflict db k = false := by
  cases hkc : keyConflict db k
  · rfl
  · exact absurd hkc h

/-- The credit unit of work preserves pairwise-distinct idempotency keys. -/
theorem credit_uow_uniqueKeys {db : DB} (h : uniqueKeys db)
    (a : Nat) (amt : Int) (d k : Option String) :
    uniqueKeys (credit_unit_of_work db a amt d k).db := by
  unfold credit_unit_of_work
  split
  · split
    · exact h
    · rename_i hconf
      exact nodup_keys_append h (keyConflict_false_of_not_true hconf)
  · exact h

/-- The debit unit of work preserves pairwise-distinct idempotency keys. -/
theorem debit_uow_uniqueKeys {db : DB} (h : uniqueKeys db)
    (a : Nat) (amt : Int) (d k : Option String) :
    uniqueKeys (debit_unit_of_work db a amt d k).db := by
  unfold debit_unit_of_work
  cases hfind : db.accounts.find? (fun x => x.id == a) with
  | none => exact h
  | some acct =>
    simp only []
    split
    · exact h
    · split
      · exact h
      · rename_i hconf
        exact nodup_keys_append h (keyConflict_false_of_not_true hconf)

/-- The transfer unit of work preserves pairwise-distinct idempotency
keys. -/
theorem transfer_uow_uniqueKeys {db : DB} (h : uniqueKeys db)
    (f t : Nat) (amt : Int) (d k : Option String) :
    uniqueKeys (transfer_unit_of_work db f t amt d k).db := by
  unfold transfer_unit_of_work
  cases hfind : db.accounts.find? (fun x => x.id == f) with
  | none => exact h
  | some fromAcct =>
    simp only []
    split
    · exact h
    · split
      · split
        · exact h
        · rename_i hconf
          exact nodup_keys_append h (keyConflict_false_of_not_true hconf)
      · exact h

/-- `execute_credit` preserves pairwise-distinct idempotency keys. -/
theorem execute_credit_uniqueKeys {db : DB} (h : uniqueKeys db)
    (a : Nat) (amt : Int) (d k : Option String) :
    uniqueKeys (execute_credit db a amt d k).db := by
  by_cases hamt : amt ≤ 0
  · unfold execute_credit; rw [if_pos hamt]; exact h
  · have hamt' : 0 < amt := not_le.mp hamt
    cases k with
    | none => rw [execute_credit_nokey db a hamt' d]; exact credit_uow_uniqueKeys h a amt d none
    | some key =>
      cases hf : findByKey db key with
      | some tx => rw [execute_credit_hit hf hamt' a d]; exact h
      | none =>
        rw [execute_credit_miss hf hamt' a d]
        exact credit_uow_uniqueKeys h a amt d (some key)

/-- `execute_debit` preserves pairwise-distinct idempotency keys. -/
theorem execute_debit_uniqueKeys {db : DB} (h : uniqueKeys db)
    (a : Nat) (amt : Int) (d k : Option String) :
    uniqueKeys (execute_debit db a amt d k).db := by
  by_cases hamt : amt ≤ 0
  · unfold execute_debit; rw [if_pos hamt]; exact h
  · have hamt' : 0 < amt := not_le.mp hamt
    cases k with
    | none => rw [execute_debit_nokey db a hamt' d]; exact debit_uow_uniqueKeys h a amt d none
    | some key =>
      cases hf : findByKey db key with
      | some tx => rw [execute_debit_hit hf hamt' a d]; exact h
      | none =>
        rw [execute_debit_miss hf hamt' a d]
        exact debit_uow_uniqueKeys h a amt d (some key)

/-- `execute_transfer` preserves pairwise-distinct idempotency keys. -/
theorem execute_transfer_uniqueKeys {db : DB} (h : uniqueKeys db)
    (f t : Nat) (amt : Int) (d k : Option String) :
    uniqueKeys (execute_transfer db f t amt d k).db := by
  by_cases hamt : amt ≤ 0
  · unfold execute_transfer; rw [if_pos hamt]; exact h
  · have hamt' : 0 < amt := not_le.mp hamt
    by_cases hne : f = t
    · unfold execute_transfer; rw [if_neg hamt, if_pos hne]; exact h
    · cases k with
      | none => rw [execute_transfer_nokey db hne hamt' d]; exact transfer_uow_uniqueKeys h f t amt d none
      | some key =>
        cases hf : findByKey db key with
        | some tx => rw [execute_transfer_hit hf hamt' hne d]; exact h
        | none =>
          rw [execute_transfer_miss hf hamt' hne d]
          exact transfer_uow_uniqueKeys h f t amt d (some key)

/-- The credit path never touches the webhook tables. -/
theorem credit_uow_webhook_tables (db : DB) (a : Nat) (amt : Int)
    (d k : Option String) :
    (credit_unit_of_work db a amt d k).db.webhookEvents = db.webhookEvents ∧
    (credit_unit_of_work db a amt d k).db.endpoints = db.endpoints := by
  unfold credit_unit_of_work
  split
  · split
    · exact ⟨rfl, rfl⟩
    · exact ⟨rfl, rfl⟩
  · exact ⟨rfl, rfl⟩

theorem execute_credit_webhook_tables (db : DB) (a : Nat) (amt : Int)
    (d k : Option String) :
    (execute_credit db a amt d k).db.webhookEvents = db.webhookEvents ∧
    (execute_credit db a amt d k).db.endpoints = db.endpoints := by
  by_cases hamt : amt ≤ 0
  · unfold execute_credit; rw [if_pos hamt]; exact ⟨rfl, rfl⟩
  · have hamt' : 0 < amt := not_le.mp hamt
    cases k with
    | none => rw [execute_credit_nokey db a hamt' d]; exact credit_uow_webhook_tables db a amt d none
    | some key =>
      cases hf : findByKey db key with
      | some tx => rw [execute_credit_hit hf hamt' a d]; exact ⟨rfl, rfl⟩
      | none =>
        rw [execute_credit_miss hf hamt' a d]
        exact credit_uow_webhook_tables db a amt d (some key)

/-- The full `create_credit` handler never touches the webhook tables: it
returns right after the ledger commit, without invoking the notifier. -/
theorem create_credit_webhook_tables (db : DB) (apiKey a : Nat) (amt : Int)
    (d k : Option String) :
    (create_credit db apiKey a amt d k).db.webhookEvents = db.webhookEvents ∧
    (create_credit db apiKey a amt d k).db.endpoints = db.endpoints := by
  unfold create_credit
  cases hfind : db.accounts.find? (fun x => x.id == a && x.api_key_id == apiKey) with
  | none => exact ⟨rfl, rfl⟩
  | some acct =>
    simp only []
    exact execute_credit_webhook_tables db acct.id amt d k

/-- Each delivery attempt appends exactly one `webhook_events` row, whatever
the HTTP outcome was. -/
theorem notifyEach_length (t : Transaction) (outcomes : Nat → HttpOutcome) :
    ∀ (l : List WebhookEndpoint) (db : DB) (eventId : Nat),
      (notifyEach db t outcomes eventId l).webhookEvents.length
        = db.webhookEvents.length + l.length := by
  intro l
  induction l with
  | nil => intro db eventId; rfl
  | cons e rest ih =>
    intro db eventId
    show (notifyEach (send_webhook db eventId e t (outcomes e.id)) t outcomes
        (eventId + 1) rest).webhookEvents.length
      = db.webhookEvents.length + (e :: rest).length
    rw [ih]
    simp [send_webhook]
    omega

/-- `execute_transfer` keeps all balances non-negative. -/
theorem execute_transfer_nonneg {db : DB} (h0 : nonNegBalances db)
    (hU : uniqueAccountIds db) (f t : Nat) (amt : Int) (d k : Option String) :
    nonNegBalances (execute_transfer db f t amt d k).db := by
  by_cases hamt : amt ≤ 0
  · unfold execute_transfer; rw [if_pos hamt]; exact h0
  · have hamt' : 0 < amt := not_le.mp hamt
    by_cases hne : f = t
    · unfold execute_transfer; rw [if_neg hamt, if_pos hne]; exact h0
    · cases k with
      | none =>
        rw [execute_transfer_nokey db hne hamt' d]
        exact transfer_uow_nonneg h0 hU hne hamt' d none
      | some key =>
        cases hf : findByKey db key with
        | some tx => rw [execute_transfer_hit hf hamt' hne d]; exact h0
        | none =>
          rw [execute_transfer_miss hf hamt' hne d]
          exact transfer_uow_nonneg h0 hU hne hamt' d (some key)

/-! ## Claim theorems -/

/-- Claim C8: every credit, debit or transfer with `amount ≤ 0` is rejected
before any storage statement is issued (empty trace, state untouched, no
idempotency lookup), and every transfer with `from = to` likewise.  The
code realizes the spec's invalid-amount error kind as
`AppError::InvalidRequest("Amount must be positive")`, and the same-account
rejection as `AppError::InvalidRequest("Cannot transfer to same account")`. -/
theorem claim8_invalid_amount_fast_fail :
    (∀ (db : DB) (a : Nat) (amt : Int) (d k : Option String), amt ≤ 0 →
        execute_credit db a amt d k
          = ⟨.error (.invalidRequest "Amount must be positive"), db, []⟩ ∧
        execute_debit db a amt d k
          = ⟨.error (.invalidRequest "Amount must be positive"), db, []⟩) ∧
    (∀ (db : DB) (f t : Nat) (amt : Int) (d k : Option String), amt ≤ 0 →
        execute_transfer db f t amt d k
          = ⟨.error (.invalidRequest "Amount must be positive"), db, []⟩) ∧
    (∀ (db : DB) (f : Nat) (amt : Int) (d k : Option String), 0 < amt →
        execute_transfer db f f amt d k
          = ⟨.error (.invalidRequest "Cannot transfer to same account"), db, []⟩) := by
  refine ⟨fun db a amt d k h => ⟨?_, ?_⟩, fun db f t amt d k h => ?_,
    fun db f amt d k h => ?_⟩
  · unfold execute_credit; rw [if_pos h]
  · unfold execute_debit; rw [if_pos h]
  · unfold execute_transfer; rw [if_pos h]
  · unfold execute_transfer; rw [if_neg (not_le.mpr h), if_pos rfl]

/-- Witness for C8: spec scenario 4, `credit(A, -10)`, and a same-account
transfer, both rejected with no storage access. -/
theorem claim8_invalid_amount_fast_fail_witness :
    ((-10 : Int) ≤ 0 ∧
      execute_credit dbScenario2 1 (-10) none none
        = ⟨.error (.invalidRequest "Amount must be positive"), dbScenario2, []⟩) ∧
    ((0 : Int) < 5 ∧
      execute_transfer dbScenario2 1 1 5 none none
        = ⟨.error (.invalidRequest "Cannot transfer to same account"), dbScenario2, []⟩) :=
  ⟨⟨by decide,
    (claim8_invalid_amount_fast_fail.1 dbScenario2 1 (-10) none none (by decide)).1⟩,
   ⟨by decide,
    claim8_invalid_amount_fast_fail.2.2 dbScenario2 1 5 none none (by decide)⟩⟩

/-- Claim C9: `validate_webhook_url` rejects URLs longer than 2048
characters, accepts every parseable `https` URL, accepts `http` exactly on
the loopback hosts `localhost`, `127.0.0.1` and `0.0.0.0`, rejects `http`
on any other host, and rejects every other scheme.  The rejections use the
`AppError::InvalidWebhookUrl` variant, the code's realization of the spec's
invalid-request kind for malformed endpoint URLs. -/
theorem claim9_webhook_url_validation :
    (∀ u : UrlInput, 2048 < u.raw.length →
        validate_webhook_url u = .error (.invalidWebhookUrl "URL exceeds 2048 characters")) ∧
    (∀ (u : UrlInput) (p : ParsedUrl), u.raw.length ≤ 2048 → u.parsed = some p →
        p.scheme = "https" → validate_webhook_url u = .ok ()) ∧
    (∀ (u : UrlInput) (p : ParsedUrl), u.raw.length ≤ 2048 → u.parsed = some p →
        p.scheme = "http" →
        (p.host = some "localhost" ∨ p.host = some "127.0.0.1" ∨ p.host = some "0.0.0.0") →
        validate_webhook_url u = .ok ()) ∧
    (∀ (u : UrlInput) (p : ParsedUrl), u.raw.length ≤ 2048 → u.parsed = some p →
        p.scheme = "http" →
        ¬ (p.host = some "localhost" ∨ p.host = some "127.0.0.1" ∨ p.host = some "0.0.0.0") →
        validate_webhook_url u
          = .error (.invalidWebhookUrl
              "HTTP is only allowed for localhost. Use HTTPS for production.")) ∧
    (∀ (u : UrlInput) (p : ParsedUrl), u.raw.length ≤ 2048 → u.parsed = some p →
        p.scheme ≠ "https" → p.scheme ≠ "http" →
        validate_webhook_url u = .error (.invalidWebhookUrl "URL must use HTTP or HTTPS")) := by
  refine ⟨fun u h => ?_, fun u p hlen hp hs => ?_, fun u p hlen hp hs hh => ?_,
    fun u p hlen hp hs hh => ?_, fun u p hlen hp h1 h2 => ?_⟩
  · unfold validate_webhook_url; rw [if_pos h]
  · unfold validate_webhook_url
    rw [if_neg (not_lt.mpr hlen)]
    simp only [hp]
    rw [if_pos hs]
  · unfold validate_webhook_url
    rw [if_neg (not_lt.mpr hlen)]
    simp only [hp]
    rw [if_neg (show ¬ p.scheme = "https" by rw [hs]; decide), if_pos hs, if_pos hh]
  · unfold validate_webhook_url
    rw [if_neg (not_lt.mpr hlen)]
    simp only [hp]
    rw [if_neg (show ¬ p.scheme = "https" by rw [hs]; decide), if_pos hs, if_neg hh]
  · unfold validate_webhook_url
    rw [if_neg (not_lt.mpr hlen)]
    simp only [hp]
    rw [if_neg h1, if_neg h2]

/-- Witness for C9: spec scenario 6 — `http://example.com/hook` rejected,
`http://localhost/hook` accepted, `https://example.com/hook` accepted. -/
theorem claim9_webhook_url_validation_witness :
    validate_webhook_url urlHttpExample
      = .error (.invalidWebhookUrl
          "HTTP is only allowed for localhost. Use HTTPS for production.") ∧
    validate_webhook_url urlHttpLocalhost = .ok () ∧
    validate_webhook_url urlHttpsExample = .ok () :=
  ⟨claim9_webhook_url_validation.2.2.2.1 urlHttpExample ⟨"http", some "example.com"⟩
      (by decide) rfl rfl (by decide),
   claim9_webhook_url_validation.2.2.1 urlHttpLocalhost ⟨"http", some "localhost"⟩
      (by decide) rfl rfl (Or.inl rfl),
   claim9_webhook_url_validation.2.1 urlHttpsExample ⟨"https", some "example.com"⟩
      (by decide) rfl rfl⟩

/-- Claim C10: the idempotency fast path matches on the key alone.  For any
stored transaction carrying the submitted key, each of the three operations
returns that transaction, with no hypothesis at all relating the stored
transaction's kind, accounts or amount to the new request. -/
theorem claim10_fastpath_key_only :
    ∀ (db : DB) (key : String) (tx : Transaction), findByKey db key = some tx →
      (∀ (a : Nat) (amt : Int) (d : Option String), 0 < amt →
         (execute_credit db a amt d (some key)).result = .ok tx) ∧
      (∀ (a : Nat) (amt : Int) (d : Option String), 0 < amt →
         (execute_debit db a amt d (some key)).result = .ok tx) ∧
      (∀ (f t : Nat) (amt : Int) (d : Option String), 0 < amt → f ≠ t →
         (execute_transfer db f t amt d (some key)).result = .ok tx) := by
  intro db key tx h
  refine ⟨fun a amt d hamt => ?_, fun a amt d hamt => ?_, fun f t amt d hamt hne => ?_⟩
  · rw [execute_credit_hit h hamt a d]
  · rw [execute_debit_hit h hamt a d]
  · rw [execute_transfer_hit h hamt hne d]

/-- Witness for C10: a credit of 999 submitted under key `k1` returns the
stored transaction, which is a debit of 42 — kind and amount differ from
the request. -/
theorem claim10_fastpath_key_only_witness :
    txKeyed.transaction_type = "debit" ∧ txKeyed.amount_cents = 42 ∧
    (execute_credit dbKeyed 2 999 none (some "k1")).result = .ok txKeyed :=
  ⟨rfl, rfl,
   (claim10_fastpath_key_only dbKeyed "k1" txKeyed (by decide)).1 2 999 none (by decide)⟩

/-- Claim C4: when a transaction with the submitted idempotency key already
exists, each operation returns that transaction unchanged (original status
included), leaves the database — balances and transaction rows — exactly as
it was, and issues only the lookup; moreover every operation preserves
pairwise-distinct idempotency keys, so at most one transaction ever exists
per key. -/
theorem claim4_idempotent_replay :
    (∀ (db : DB) (key : String) (tx : Transaction), findByKey db key = some tx →
       (∀ (a : Nat) (amt : Int) (d : Option String), 0 < amt →
          execute_credit db a amt d (some key)
            = ⟨.ok tx, db, [.queryIdempotencyKey key]⟩ ∧
          execute_debit db a amt d (some key)
            = ⟨.ok tx, db, [.queryIdempotencyKey key]⟩) ∧
       (∀ (f t : Nat) (amt : Int) (d : Option String), 0 < amt → f ≠ t →
          execute_transfer db f t amt d (some key)
            = ⟨.ok tx, db, [.queryIdempotencyKey key]⟩)) ∧
    (∀ (db : DB) (a : Nat) (amt : Int) (d k : Option String), uniqueKeys db →
       uniqueKeys (execute_credit db a amt d k).db ∧
       uniqueKeys (execute_debit db a amt d k).db) ∧
    (∀ (db : DB) (f t : Nat) (amt : Int) (d k : Option String), uniqueKeys db →
       uniqueKeys (execute_transfer db f t amt d k).db) :=
  ⟨fun _ _ _ h =>
    ⟨fun a _ d hamt => ⟨execute_credit_hit h hamt a d, execute_debit_hit h hamt a d⟩,
     fun _ _ _ d hamt hne => execute_transfer_hit h hamt hne d⟩,
   fun _ a amt d k h =>
    ⟨execute_credit_uniqueKeys h a amt d k, execute_debit_uniqueKeys h a amt d k⟩,
   fun _ f t amt d k h => execute_transfer_uniqueKeys h f t amt d k⟩

/-- Witness for C4: resubmission under key `k1` returns the stored
transaction and changes nothing; key distinctness is preserved. -/
theorem claim4_idempotent_replay_witness :
    findByKey dbKeyed "k1" = some txKeyed ∧
    execute_debit dbKeyed 1 50 none (some "k1")
      = ⟨.ok txKeyed, dbKeyed, [.queryIdempotencyKey "k1"]⟩ ∧
    uniqueKeys dbKeyed ∧
    uniqueKeys (execute_debit dbKeyed 1 50 none (some "k1")).db :=
  ⟨by decide,
   ((claim4_idempotent_replay.1 dbKeyed "k1" txKeyed (by decide)).1 1 50 none (by decide)).2,
   by decide,
   (claim4_idempotent_replay.2.1 dbKeyed 1 50 none (some "k1") (by decide)).2⟩

/-- Claim C5 evidence: in the lookup-then-insert race — the fast-path
lookup misses, a concurrent duplicate with the same key commits, and the
unit of work then hits the uniqueness constraint — `execute_credit`
surfaces the raw `AppError::Database` unique-violation error to the caller
instead of re-reading and returning the pre-existing transaction. -/
theorem claim5_unique_violation_surfaced :
    findByKey dbRaceBefore "k" = none ∧
    findByKey dbRaceAfter "k" = some txConcurrent ∧
    (execute_credit_racy dbRaceBefore dbRaceAfter 1 500 none "k").result
      = .error uniqueViolation ∧
    (execute_credit_racy dbRaceBefore dbRaceAfter 1 500 none "k").result
      ≠ .ok txConcurrent := by
  refine ⟨by decide, by decide, rfl, fun h => ?_⟩
  exact Except.noConfusion h

/-- Claim C6 evidence: `execute_transfer` locks the `from` row first and
the `to` row second, in that fixed textual order — for `transfer(2, 1, _)`
the lock trace is `[2, 1]`, not the ascending id order `[1, 2]` that the
spec's fixed-total-order rule requires. -/
theorem claim6_locks_from_row_first :
    locksAcquired (execute_transfer dbTwoAccounts 2 1 100 none none).trace = [2, 1] ∧
    locksAcquired (execute_transfer dbTwoAccounts 2 1 100 none none).trace ≠ [1, 2] ∧
    (execute_transfer dbTwoAccounts 2 1 100 none none).result
      = .ok { id := 0, idempotency_key := none, transaction_type := "transfer",
              from_account_id := some 2, to_account_id := some 1,
              amount_cents := 100, description := none, status := "completed" } :=
  ⟨by decide, by decide, rfl⟩

/-- Claim C1: on a state with a primary key on account ids, every ledger
operation preserves non-negativity of all balances, and a debit or transfer
whose amount exceeds the source balance is rejected with
`InsufficientBalance` (so the subtraction is never applied). -/
theorem claim1_balance_invariant (db : DB)
    (h0 : nonNegBalances db) (hU : uniqueAccountIds db) :
    (∀ (a : Nat) (amt : Int) (d k : Option String),
        nonNegBalances (execute_credit db a amt d k).db) ∧
    (∀ (a : Nat) (amt : Int) (d k : Option String),
        nonNegBalances (execute_debit db a amt d k).db) ∧
    (∀ (f t : Nat) (amt : Int) (d k : Option String),
        nonNegBalances (execute_transfer db f t amt d k).db) ∧
    (∀ (a : Nat) (amt : Int) (d k : Option String) (bal : Int),
        0 < amt → k.bind (findByKey db) = none →
        balanceOf db a = some bal → bal < amt →
        (execute_debit db a amt d k).result = .error .insufficientBalance) := by
  refine ⟨fun a amt d k => execute_credit_nonneg h0 a amt d k,
    fun a amt d k => execute_debit_nonneg h0 hU a amt d k,
    fun f t amt d k => execute_transfer_nonneg h0 hU f t amt d k,
    fun a amt d k bal hamt hk hbal hlt => ?_⟩
  obtain ⟨acct, hfind, hbal_eq, -, -⟩ := exists_account_of_balanceOf hbal
  rw [(execute_debit_dispatch hk hamt a d).1,
    debit_uow_insufficient hfind (show acct.balance_cents < amt by omega) d k]

/-- Witness for C1: the scenario-2 state is non-negative with distinct ids,
and stays non-negative across a rejected overdraft debit. -/
theorem claim1_balance_invariant_witness :
    nonNegBalances dbScenario2 ∧ uniqueAccountIds dbScenario2 ∧
    nonNegBalances (execute_debit dbScenario2 1 500 none none).db :=
  ⟨by decide, by decide,
   (claim1_balance_invariant dbScenario2 (by decide) (by decide)).2.1 1 500 none none⟩

/-- Claim C2: a debit or transfer whose amount exceeds the source balance
fails with `InsufficientBalance` and leaves the database state — every
balance and the transaction table — exactly as before the call (the open
unit of work is rolled back in full; no row is inserted).  The hypotheses
scope the claim to a fresh operation: an idempotent replay returns the
stored transaction instead of executing. -/
theorem claim2_insufficient_rolls_back :
    (∀ (db : DB) (a : Nat) (amt : Int) (d k : Option String) (bal : Int),
        0 < amt → k.bind (findByKey db) = none →
        balanceOf db a = some bal → bal < amt →
        (execute_debit db a amt d k).result = .error .insufficientBalance ∧
        (execute_debit db a amt d k).db = db) ∧
    (∀ (db : DB) (f t : Nat) (amt : Int) (d k : Option String) (bal : Int),
        0 < amt → f ≠ t → k.bind (findByKey db) = none →
        balanceOf db f = some bal → bal < amt →
        (execute_transfer db f t amt d k).result = .error .insufficientBalance ∧
        (execute_transfer db f t amt d k).db = db) := by
  constructor
  · intro db a amt d k bal hamt hk hbal hlt
    obtain ⟨acct, hfind, hbal_eq, -, -⟩ := exists_account_of_balanceOf hbal
    obtain ⟨hres, hdb⟩ := execute_debit_dispatch hk hamt a d
    have huow := debit_uow_insufficient hfind (show acct.balance_cents < amt by omega) d k
    exact ⟨by rw [hres, huow], by rw [hdb, huow]⟩
  · intro db f t amt d k bal hamt hne hk hbal hlt
    obtain ⟨acct, hfind, hbal_eq, -, -⟩ := exists_account_of_balanceOf hbal
    obtain ⟨hres, hdb⟩ := execute_transfer_dispatch hk hamt hne d
    have huow := transfer_uow_insufficient hfind (show acct.balance_cents < amt by omega) t d k
    exact ⟨by rw [hres, huow], by rw [hdb, huow]⟩

/-- Witness for C2: spec scenario 2 — balance 300, `debit(A, 500)` is
rejected with `InsufficientBalance` and the state is unchanged. -/
theorem claim2_insufficient_rolls_back_witness :
    (0 : Int) < 500 ∧ balanceOf dbScenario2 1 = some 300 ∧ (300 : Int) < 500 ∧
    (execute_debit dbScenario2 1 500 none none).result = .error .insufficientBalance ∧
    (execute_debit dbScenario2 1 500 none none).db = dbScenario2 := by
  obtain ⟨h1, h2⟩ := claim2_insufficient_rolls_back.1 dbScenario2 1 500 none none 300
    (by decide) rfl (by decide) (by decide)
  exact ⟨by decide, by decide, by decide, h1, h2⟩

/-- Claim C3: a fresh transfer between distinct existing accounts with
sufficient source balance succeeds, decreases the source by exactly the
amount, increases the destination by exactly the amount (the sum is
conserved), and appends exactly one completed transfer row with matching
from, to and amount. -/
theorem claim3_transfer_conservation :
    ∀ (db : DB) (f t : Nat) (amt : Int) (d k : Option String) (bf bt : Int),
      0 < amt → f ≠ t → k.bind (findByKey db) = none →
      balanceOf db f = some bf → balanceOf db t = some bt → amt ≤ bf →
      ∃ tx : Transaction,
        (execute_transfer db f t amt d k).result = .ok tx ∧
        tx.transaction_type = "transfer" ∧
        tx.from_account_id = some f ∧
        tx.to_account_id = some t ∧
        tx.amount_cents = amt ∧
        tx.status = "completed" ∧
        (execute_transfer db f t amt d k).db.transactions = db.transactions ++ [tx] ∧
        balanceOf (execute_transfer db f t amt d k).db f = some (bf - amt) ∧
        balanceOf (execute_transfer db f t amt d k).db t = some (bt + amt) ∧
        (bf - amt) + (bt + amt) = bf + bt := by
  intro db f t amt d k bf bt hamt hne hk hbf hbt hge
  obtain ⟨fa, hfindf, hbf_eq, -, -⟩ := exists_account_of_balanceOf hbf
  obtain ⟨ta, hfindt, hbt_eq, -, -⟩ := exists_account_of_balanceOf hbt
  have hto : db.accounts.any (fun x => x.id == t) = true := any_eq_true_of_find?_some hfindt
  have hc : keyConflict db k = false := by
    cases k with
    | none => rfl
    | some key => exact keyConflict_eq_false_of_findByKey_none hk
  obtain ⟨hres, hdb⟩ := execute_transfer_dispatch hk hamt hne d
  have huow := transfer_uow_success hfindf (show ¬ fa.balance_cents < amt by omega) hto hc d
  refine ⟨_, by rw [hres, huow], rfl, rfl, rfl, rfl, rfl, by rw [hdb, huow], ?_, ?_, by ring⟩
  · rw [hdb, huow]
    unfold balanceOf
    show ((updateBalanceRows (updateBalanceRows db.accounts f (-amt)) t amt).find?
        (fun a => a.id == f)).map (fun a => a.balance_cents) = some (bf - amt)
    rw [find?_updateBalanceRows_ne _ _ hne, find?_updateBalanceRows_eq, hfindf]
    rw [show bf - amt = fa.balance_cents + -amt by omega]
    rfl
  · rw [hdb, huow]
    unfold balanceOf
    show ((updateBalanceRows (updateBalanceRows db.accounts f (-amt)) t amt).find?
        (fun a => a.id == t)).map (fun a => a.balance_cents) = some (bt + amt)
    rw [find?_updateBalanceRows_eq, find?_updateBalanceRows_ne _ _ (Ne.symm hne), hfindt]
    rw [show bt + amt = ta.balance_cents + amt by omega]
    rfl

/-- Witness for C3: spec scenario 3 — `transfer(A, B, 400)` with A at 1000
and B at 0 ends with A at 600 and B at 400. -/
theorem claim3_transfer_conservation_witness :
    balanceOf (execute_transfer dbScenario3 1 2 400 none none).db 1 = some 600 ∧
    balanceOf (execute_transfer dbScenario3 1 2 400 none none).db 2 = some 400 := by
  obtain ⟨tx, -, -, -, -, -, -, -, h8, h9, -⟩ :=
    claim3_transfer_conservation dbScenario3 1 2 400 none none 1000 0
      (by decide) (by decide) rfl (by decide) (by decide) (by decide)
  constructor
  · rw [h8]; decide
  · rw [h9]; decide

/-- Claim C7 evidence: no handler ever invokes the webhook notifier.  The
`create_credit` handler leaves the `webhook_events` table untouched on
every input; concretely, a completed credit for an owner with one active
endpoint records zero delivery attempts, although one invocation of
`notify_transaction_webhooks` on the committed transaction would have
recorded exactly one — whatever the HTTP outcome. -/
theorem claim7_no_webhook_delivery :
    (∀ (db : DB) (apiKey a : Nat) (amt : Int) (d k : Option String),
        (create_credit db apiKey a amt d k).db.webhookEvents = db.webhookEvents) ∧
    (create_credit dbWithEndpoint 7 1 500 none none).result = .ok txCredited ∧
    txCredited.status = "completed" ∧
    (activeEndpointsFor dbWithEndpoint 7).length = 1 ∧
    (create_credit dbWithEndpoint 7 1 500 none none).db.webhookEvents.length = 0 ∧
    (∀ (outcomes : Nat → HttpOutcome) (eventId : Nat),
        (notify_transaction_webhooks (create_credit dbWithEndpoint 7 1 500 none none).db
            txCredited 7 outcomes eventId).webhookEvents.length = 1) := by
  refine ⟨fun db apiKey a amt d k => (create_credit_webhook_tables db apiKey a amt d k).1,
    rfl, rfl, rfl, rfl, fun outcomes eventId => ?_⟩
  unfold notify_transaction_webhooks
  rw [notifyEach_length]
  rfl

end Ledger
